import Mathlib

/-!
Verification of the hybrid retrieval and ranking engine of
`universal-search-ts`.

The development shallowly embeds the scoring utilities
(`src/utils/searchUtils.ts`), the LLM reranker
(`src/services/llm/Reranker.ts`) and the score-merging / rerank / fuse /
sort stages of the two search orchestrators
(`src/services/search/DocumentSearchService.ts`,
`src/services/search/UrlSearchService.ts`).

Modelling conventions:
* JavaScript numbers are modelled as rationals (`ℚ`); every finite IEEE
  double is a rational, and none of the verified properties depend on
  rounding.  `NaN` is modelled explicitly as `none` in `Option ℚ` where a
  computation can produce it (the recency scorer).
* `Math.exp` is kept abstract: definitions that need it take a function
  `mexp : ℚ → ℚ` as a parameter, standing for the (rational-valued)
  result of the floating-point exponential.
* JavaScript strings are modelled as `String` / `List Char`;
  `toLowerCase`, `includes` and `split(/\s+/)` are given explicit
  list-level implementations below because the built-in `String`
  operations do not reduce inside the kernel.
* `Map` / plain-object dictionaries are modelled as association lists
  (`List (String × _)`) with JS `Map.set` update semantics.
-/

namespace USearch

/-- JS `Math.min` on two numbers (no NaN involved). -/
def jsMin (a b : ℚ) : ℚ := if a ≤ b then a else b

/-- JS `Math.max` on two numbers (no NaN involved). -/
def jsMax (a b : ℚ) : ℚ := if b ≤ a then a else b

/-- JS `String.prototype.toLowerCase`, character by character. -/
def lowerStr (s : List Char) : List Char := s.map Char.toLower

/-- Helper for the includes model: `leadEq q t` holds when `q` is an initial run of `t`
(helper for the JS `String.prototype.includes` model). -/
def leadEq : List Char → List Char → Bool
  | [], _ => true
  | _ :: _, [] => false
  | a :: as, b :: bs => a == b && leadEq as bs

/-- JS `t.includes(q)` : `q` occurs contiguously inside `t`. -/
def hasSub (q : List Char) : List Char → Bool
  | [] => q.isEmpty
  | c :: cs => leadEq q (c :: cs) || hasSub q cs

/-- One pass of splitting on whitespace; produces the (possibly empty)
fields between whitespace characters, as `split(/\s+/)` does after the
empty fields are discarded. -/
def splitWsAux : List Char → List Char → List (List Char)
  | [], acc => [acc.reverse]
  | c :: cs, acc =>
    if c.isWhitespace then acc.reverse :: splitWsAux cs []
    else splitWsAux cs (c :: acc)

/-- JS `text.split(/\s+/).filter(Boolean)` : the non-empty
whitespace-separated tokens of `text`. -/
def splitWs (s : List Char) : List (List Char) :=
  (splitWsAux s []).filter (· ≠ [])

/-- The word-overlap branch of `calculateFuzzyScore`
(`src/utils/searchUtils.ts` lines 28-79), reached when the query is
neither the whole text nor a substring of it.  `t` and `q` are the
already lower-cased text and query. -/
def fuzzyTokenScore (t q : List Char) : ℚ :=
  let textWords := splitWs t
  let queryWords := (splitWs q).eraseDups
  if queryWords.length = 0 then 0
  else
    let matchingWords := queryWords.filter (fun w => textWords.contains w)
    let wordScore : ℚ := (matchingWords.length : ℚ) / (queryWords.length : ℚ)
    let boost : ℚ :=
      if 1 < matchingWords.length then
        let positions := matchingWords.filterMap (fun w => textWords.findIdx? (· == w))
        if 1 < positions.length then
          let sorted := List.insertionSort (· ≤ ·) positions
          let gaps := (sorted.zip sorted.tail).map (fun p => ((p.2 : ℚ) - (p.1 : ℚ)))
          if 0 < gaps.length then
            let avgGap := gaps.sum / (gaps.length : ℚ)
            jsMax 0 ((1/5) * (1 - jsMin (avgGap / 10) 1))
          else 0
        else 0
      else 0
    jsMin (7/10) (wordScore + boost)

/-- The function `calculateFuzzyScore` (`src/utils/searchUtils.ts` lines 9-80):
empty-input guard, exact-match branch, substring branch, then the
word-overlap branch. -/
def calculateFuzzyScore (text query : String) : ℚ :=
  if text = "" ∨ query = "" then 0
  else
    let t := lowerStr text.toList
    let q := lowerStr query.toList
    if q = t then 1
    else if hasSub q t then
      jsMin 1 (4/5 + ((q.length : ℚ) / (t.length : ℚ)) * (1/5))
    else fuzzyTokenScore t q

theorem jsMin_le_left (a b : ℚ) : jsMin a b ≤ a := by
  unfold jsMin; split <;> linarith

theorem jsMin_le_right (a b : ℚ) : jsMin a b ≤ b := by
  unfold jsMin; split <;> linarith

theorem jsMin_nonneg {a b : ℚ} (ha : 0 ≤ a) (hb : 0 ≤ b) : 0 ≤ jsMin a b := by
  unfold jsMin; split <;> linarith

theorem le_jsMax_left (a b : ℚ) : a ≤ jsMax a b := by
  unfold jsMax; split <;> linarith

theorem div_cast_nonneg (m n : ℕ) : 0 ≤ (m : ℚ) / (n : ℚ) := by positivity

theorem fuzzyTokenScore_nonneg (t q : List Char) : 0 ≤ fuzzyTokenScore t q := by
  simp only [fuzzyTokenScore]
  split_ifs
  · exact le_rfl
  all_goals refine jsMin_nonneg (by norm_num) ?_
  all_goals
    first
    | exact add_nonneg (div_cast_nonneg _ _) (le_jsMax_left 0 _)
    | exact add_nonneg (div_cast_nonneg _ _) le_rfl

theorem fuzzyTokenScore_le (t q : List Char) : fuzzyTokenScore t q ≤ 7/10 := by
  simp only [fuzzyTokenScore]
  split_ifs
  · norm_num
  all_goals exact jsMin_le_left _ _

/-- Claim C5: for every text/query pair `calculateFuzzyScore` lies in
`[0,1]`; a case-insensitive exact full-string match (of non-empty
strings, which is what the empty-input guard lets through) returns
exactly `1`; and any pair that is neither an exact match nor a substring
match scores at most `7/10`, regardless of the proximity boost. -/
theorem fuzzy_score_bounds (text query : String) :
    (0 ≤ calculateFuzzyScore text query ∧ calculateFuzzyScore text query ≤ 1)
    ∧ (text ≠ "" → query ≠ "" →
        lowerStr query.toList = lowerStr text.toList →
        calculateFuzzyScore text query = 1)
    ∧ (lowerStr query.toList ≠ lowerStr text.toList →
        hasSub (lowerStr query.toList) (lowerStr text.toList) = false →
        calculateFuzzyScore text query ≤ 7/10) := by
  refine ⟨?_, ?_, ?_⟩
  · simp only [calculateFuzzyScore]
    split_ifs with h1 h2 h3
    · norm_num
    · norm_num
    · exact ⟨jsMin_nonneg (by norm_num) (by positivity), jsMin_le_left _ _⟩
    · exact ⟨fuzzyTokenScore_nonneg _ _,
        le_trans (fuzzyTokenScore_le _ _) (by norm_num)⟩
  · intro h1 h2 heq
    simp only [calculateFuzzyScore]
    rw [if_neg (not_or.mpr ⟨h1, h2⟩), if_pos heq]
  · intro hne hsub
    simp only [calculateFuzzyScore]
    split_ifs with h1 h2
    · norm_num
    · exact absurd (hsub.symm.trans h2) Bool.false_ne_true
    · exact fuzzyTokenScore_le _ _

/-- Witness for C5: a concrete case-insensitive exact match scores `1`,
and a concrete token-overlap pair stays at or below `7/10`. -/
theorem fuzzy_score_bounds_witness :
    calculateFuzzyScore "Ab" "aB" = 1 ∧
    calculateFuzzyScore "xs ys" "xs zs" ≤ 7/10 :=
  ⟨(fuzzy_score_bounds "Ab" "aB").2.1 (by decide) (by decide) (by decide),
   (fuzzy_score_bounds "xs ys" "xs zs").2.2 (by decide) (by decide)⟩

/-- Claim C10: the single-space query is non-empty, consists only of
whitespace, occurs in the text `"a b"`, and `calculateFuzzyScore`
scores the pair at least `4/5`: the empty-string guard only catches the
literal empty string and the substring branch fires before
tokenization, so the zero-token rule is never reached. -/
theorem whitespace_query_substring_score :
    (" " : String) ≠ "" ∧ (∀ c ∈ (" " : String).toList, c.isWhitespace)
    ∧ hasSub (" " : String).toList ("a b" : String).toList = true
    ∧ 4/5 ≤ calculateFuzzyScore "a b" " " := by
  refine ⟨by decide, by decide, by decide, ?_⟩
  have hq : (lowerStr (" " : String).toList).length = 1 := by decide
  have ht : (lowerStr ("a b" : String).toList).length = 3 := by decide
  simp only [calculateFuzzyScore]
  rw [if_neg (by decide), if_neg (by decide), if_pos (by decide)]
  rw [hq, ht]
  norm_num [jsMin]

/-- The `publishedDate` argument of `calculateRecencyScore`
(`Date | string | number | null` in the source), classified by how the
JS code treats it: `absent` covers every falsy input (null, undefined,
`0`, `NaN`, the empty string); `valid` carries the epoch-milliseconds
value of an input that `new Date(...)` parses; `invalid` is a truthy
input on which `new Date(...)` yields an Invalid Date (time `NaN`). -/
inductive DateInput where
  | absent
  | valid (ms : ℤ)
  | invalid
deriving DecidableEq

/-- The function `calculateRecencyScore` (`src/utils/searchUtils.ts` lines 89-121).
`mexp` stands for `Math.exp`; `now` is `Date.now()` in ms.  The result
is `none` when the JS code returns `NaN`: `new Date` never throws on an
unparseable input, it yields an Invalid Date whose `getTime()` is
`NaN`, so `daysSincePub`, `normalizedAge` and `Math.exp(NaN)` are all
`NaN` and the `catch` branch is dead code.  The body of the source is
mirrored with that `NaN` propagation made explicit: for a `valid` date
`daysSincePub = floor((now - t) / 86400000)` and the decay is applied;
for an `invalid` date the `recencyBias === 0` early return still fires
(before any `NaN` check), otherwise `NaN` flows to the result. -/
def calculateRecencyScore (mexp : ℚ → ℚ) (now : ℤ) (publishedDate : DateInput)
    (recencyBias : ℚ) : Option ℚ :=
  match publishedDate with
  | .absent => some (1/2)
  | .valid ms =>
    let daysSincePub : ℤ := Int.fdiv (now - ms) 86400000
    if recencyBias = 0 then some 1
    else
      let normalizedAge : ℚ := jsMin ((daysSincePub : ℚ) / 365) 1
      let k : ℚ := 5 * recencyBias
      some (mexp (-(k * normalizedAge)))
  | .invalid =>
    if recencyBias = 0 then some 1
    else none

/-- Claim C6 is a code bug: a truthy but unparseable timestamp does not
reach the `catch` branch (`new Date` never throws), so instead of the
documented `0.5` the function returns `NaN` (here `none`) for any
nonzero bias, and `1` when the bias is `0`.  Stated for every model of
`Math.exp` and every clock value. -/
theorem recency_unparseable_not_half (mexp : ℚ → ℚ) (now : ℤ) :
    calculateRecencyScore mexp now .invalid (1/2) = none
    ∧ calculateRecencyScore mexp now .invalid 0 = some 1
    ∧ calculateRecencyScore mexp now .invalid (1/2) ≠ some (1/2)
    ∧ calculateRecencyScore mexp now .invalid 0 ≠ some (1/2) := by
  have h1 : calculateRecencyScore mexp now .invalid (1/2) = none := by
    norm_num [calculateRecencyScore]
  exact ⟨h1, by norm_num [calculateRecencyScore], by rw [h1]; simp,
    by norm_num [calculateRecencyScore]⟩

/-- The plain-object score map passed to `calculateWeightedScore`.  The
TS interface lists five known score fields plus an index signature; the
document orchestrator additionally stores `rerankScore` through that
index signature, so it is carried here as well.  `none` models an
absent (`undefined`) field. -/
structure Scores where
  titleVectorScore : Option ℚ
  avgChunkScore : Option ℚ
  fuzzyScore : Option ℚ
  recencyScore : Option ℚ
  urlVectorScore : Option ℚ
  rerankScore : Option ℚ
deriving DecidableEq

/-- The weight object passed to `calculateWeightedScore`; the document
orchestrator stores `rerankWeight` through the index signature. -/
structure Weights where
  titleWeight : Option ℚ
  chunkWeight : Option ℚ
  fuzzyWeight : Option ℚ
  recencyWeight : Option ℚ
  urlWeight : Option ℚ
  rerankWeight : Option ℚ
deriving DecidableEq

/-- One `if (score !== undefined && weight !== undefined)` accumulation
block of `calculateWeightedScore`: `acc` is the running
`(totalScore, totalWeight)` pair. -/
def fuseStep (acc : ℚ × ℚ) (score weight : Option ℚ) : ℚ × ℚ :=
  match score, weight with
  | some s, some w => (acc.1 + s * w, acc.2 + w)
  | _, _ => acc

/-- The accumulated `(totalScore, totalWeight)` of
`calculateWeightedScore` (`src/utils/searchUtils.ts` lines 148-179):
exactly five accumulation blocks, for the five named score/weight
pairs; no block reads `rerankScore` or `rerankWeight`. -/
def fuseAcc (scores : Scores) (weights : Weights) : ℚ × ℚ :=
  fuseStep
    (fuseStep
      (fuseStep
        (fuseStep
          (fuseStep (0, 0) scores.titleVectorScore weights.titleWeight)
          scores.avgChunkScore weights.chunkWeight)
        scores.fuzzyScore weights.fuzzyWeight)
      scores.recencyScore weights.recencyWeight)
    scores.urlVectorScore weights.urlWeight

/-- The function `calculateWeightedScore` (`src/utils/searchUtils.ts`
lines 130-187): weighted mean of the matched signals, `0` when the
accumulated weight is `0`. -/
def calculateWeightedScore (scores : Scores) (weights : Weights) : ℚ :=
  let acc := fuseAcc scores weights
  if acc.2 = 0 then 0 else acc.1 / acc.2

/-- The `scores` map with every named score nulled out when its counterpart
weight is absent (used to state that unmatched scores are skipped). -/
def matchedScores (scores : Scores) (weights : Weights) : Scores where
  titleVectorScore := if weights.titleWeight = none then none else scores.titleVectorScore
  avgChunkScore := if weights.chunkWeight = none then none else scores.avgChunkScore
  fuzzyScore := if weights.fuzzyWeight = none then none else scores.fuzzyScore
  recencyScore := if weights.recencyWeight = none then none else scores.recencyScore
  urlVectorScore := if weights.urlWeight = none then none else scores.urlVectorScore
  rerankScore := scores.rerankScore

/-- The `weights` map with every named weight nulled out when its counterpart
score is absent. -/
def matchedWeights (weights : Weights) (scores : Scores) : Weights where
  titleWeight := if scores.titleVectorScore = none then none else weights.titleWeight
  chunkWeight := if scores.avgChunkScore = none then none else weights.chunkWeight
  fuzzyWeight := if scores.fuzzyScore = none then none else weights.fuzzyWeight
  recencyWeight := if scores.recencyScore = none then none else weights.recencyWeight
  urlWeight := if scores.urlVectorScore = none then none else weights.urlWeight
  rerankWeight := weights.rerankWeight

theorem fuseStep_matched (acc : ℚ × ℚ) (s w : Option ℚ) :
    fuseStep acc (if w = none then none else s) (if s = none then none else w)
      = fuseStep acc s w := by
  cases s <;> cases w <;> simp [fuseStep]

/-- Claim C7: `calculateWeightedScore` is a total function (this model
is a Lean function, and every branch of the source returns); signals
lacking a counterpart on the other side contribute nothing (replacing
them by `undefined` does not change the result); and whenever the
accumulated total weight is zero — in particular for two empty maps —
the result is exactly `0`. -/
theorem weighted_score_skips_and_zero (scores : Scores) (weights : Weights) :
    calculateWeightedScore scores weights
      = calculateWeightedScore (matchedScores scores weights) (matchedWeights weights scores)
    ∧ ((fuseAcc scores weights).2 = 0 → calculateWeightedScore scores weights = 0) := by
  constructor
  · have hacc : fuseAcc (matchedScores scores weights) (matchedWeights weights scores)
        = fuseAcc scores weights := by
      simp only [fuseAcc, matchedScores, matchedWeights, fuseStep_matched]
    simp only [calculateWeightedScore, hacc]
  · intro h
    simp only [calculateWeightedScore, h, if_pos]

/-- Witness for C7: with two empty maps the accumulated weight is `0`
and the fused score is exactly `0`. -/
theorem weighted_score_skips_and_zero_witness :
    calculateWeightedScore ⟨none, none, none, none, none, none⟩
      ⟨none, none, none, none, none, none⟩ = 0 :=
  (weighted_score_skips_and_zero
    ⟨none, none, none, none, none, none⟩
    ⟨none, none, none, none, none, none⟩).2 rfl

/-- JSON values, as produced by `JSON.parse` inside
`cleanAndParseJson`.  Numeric literals are carried as rationals. -/
inductive Json where
  | null
  | bool (b : Bool)
  | num (q : ℚ)
  | str (s : String)
  | arr (elems : List Json)
  | obj (fields : List (String × Json))

/-- Leading and trailing JS whitespace removed (`String.prototype.trim`
as used by `Number(...)` coercion of strings). -/
def trimWs (s : List Char) : List Char :=
  ((s.dropWhile Char.isWhitespace).reverse.dropWhile Char.isWhitespace).reverse

/-- Digit-string to natural number; `none` when a non-digit occurs. -/
def digitsToNat (acc : ℕ) : List Char → Option ℕ
  | [] => some acc
  | c :: cs => if c.isDigit then digitsToNat (acc * 10 + (c.toNat - 48)) cs else none

/-- Unsigned decimal literal (`digits`, `digits.digits`, `.digits`,
`digits.`); `none` for anything else.  Exponent and hex forms of the JS
grammar are not modelled (no claim depends on them). -/
def parseUnsigned (s : List Char) : Option ℚ :=
  match s.splitOn '.' with
  | [w] =>
    if w = [] then none
    else (digitsToNat 0 w).map (fun n => (n : ℚ))
  | [w, f] =>
    if w = [] ∧ f = [] then none
    else
      match digitsToNat 0 w, digitsToNat 0 f with
      | some wn, some fn => some ((wn : ℚ) + (fn : ℚ) / ((10 : ℚ) ^ f.length))
      | _, _ => none
  | _ => none

/-- JS `Number(string)`: trimmed empty string is `0`, otherwise an
optionally signed decimal literal; `none` models `NaN`. -/
def jsStrToNum (s : String) : Option ℚ :=
  match trimWs s.toList with
  | [] => some 0
  | '-' :: rest => (parseUnsigned rest).map (fun q => -q)
  | '+' :: rest => parseUnsigned rest
  | t => parseUnsigned t

/-- JS `Number(value)` coercion for the JSON values the reranker can
meet; `none` models `NaN`.  Singleton arrays coerce through their
element's string form (modelled for the primitive payloads that
round-trip); other arrays and all plain objects are `NaN` except the
empty array, which is `0`. -/
def jsToNumber : Json → Option ℚ
  | .null => some 0
  | .bool b => some (if b then 1 else 0)
  | .num q => some q
  | .str s => jsStrToNum s
  | .arr [] => some 0
  | .arr [.num q] => some q
  | .arr [.str s] => jsStrToNum s
  | .arr [.null] => some 0
  | .arr _ => none
  | .obj _ => none

/-- JS `Object.entries(x)` filtered by the guard
`if (rerankScores && typeof rerankScores === 'object')`: `null` is
falsy, primitives fail the `typeof` test (both give no entries); arrays
enumerate index/element pairs; objects enumerate their fields. -/
def jsonEntries : Json → List (String × Json)
  | .obj fields => fields
  | .arr elems => elems.enum.map (fun p => (toString p.1, p.2))
  | _ => []

/-- JS `Map.prototype.get` over an insertion-ordered association
list. -/
def mapGet : List (String × ℚ) → String → Option ℚ
  | [], _ => none
  | p :: ps, k => if p.1 == k then some p.2 else mapGet ps k

/-- JS `Map.prototype.set`: replace the first (unique) entry with the
same key in place, otherwise append. -/
def mapSet : List (String × ℚ) → String → ℚ → List (String × ℚ)
  | [], k, v => [(k, v)]
  | p :: ps, k, v => if p.1 == k then (k, v) :: ps else p :: mapSet ps k v

/-- A document handed to `Reranker.rerankResults`
(`RerankableDocument` in `src/services/llm/Reranker.ts`). -/
structure RerankableDoc where
  docId : String
  title : String
  content : String
deriving DecidableEq

/-- The observable outcome of the completion call plus
`cleanAndParseJson` inside `rerankResults`' `try` block:
the provider threw; the message content was `null`/empty (the code then
throws `Empty response from LLM` itself); `cleanAndParseJson` threw on
unparseable text; or parsing produced a JSON value. -/
inductive LlmOutcome where
  | providerError
  | emptyContent
  | unparseable
  | parsed (j : Json)

/-- The `catch` fallback of `rerankResults` (`Reranker.ts` lines
82-92): a fresh map assigning `0.5` to every input document id. -/
def fallbackScores (documents : List RerankableDoc) : List (String × ℚ) :=
  documents.foldl (fun m d => mapSet m d.docId (1/2)) []

/-- The method `Reranker.rerankResults` (`Reranker.ts` lines 35-93).  On the
success path every entry of the parsed value is coerced with
`Number(...)`; `NaN` entries are dropped and the rest are clamped into
`[0,1]` via `Math.min(Math.max(n, 0), 1)`.  Any failure before that
point lands in the `catch` block and yields the `0.5` fallback map. -/
def rerankResults (outcome : LlmOutcome) (documents : List RerankableDoc) :
    List (String × ℚ) :=
  match outcome with
  | .parsed j =>
    (jsonEntries j).foldl
      (fun m p =>
        match jsToNumber p.2 with
        | some n => mapSet m p.1 (jsMin (jsMax n 0) 1)
        | none => m) []
  | _ => fallbackScores documents

theorem mapGet_mapSet_self (m : List (String × ℚ)) (k : String) (v : ℚ) :
    mapGet (mapSet m k v) k = some v := by
  induction m with
  | nil => simp [mapSet, mapGet]
  | cons p ps ih =>
    by_cases h : p.1 = k
    · simp [mapSet, mapGet, h]
    · simp only [mapSet, mapGet, beq_iff_eq, if_neg h]
      exact ih

theorem mapGet_mapSet_ne (m : List (String × ℚ)) (k k' : String) (v : ℚ)
    (h : k' ≠ k) : mapGet (mapSet m k v) k' = mapGet m k' := by
  induction m with
  | nil => simp [mapSet, mapGet, Ne.symm h]
  | cons p ps ih =>
    by_cases hp : p.1 = k
    · simp [mapSet, mapGet, hp, Ne.symm h]
    · simp [mapSet, mapGet, hp, ih]

theorem mapGet_foldl_fallback (documents : List RerankableDoc)
    (m : List (String × ℚ)) (k : String)
    (h : mapGet m k = some (1/2) ∨ k ∈ documents.map (·.docId)) :
    mapGet (documents.foldl (fun m d => mapSet m d.docId (1/2)) m) k = some (1/2) := by
  induction documents generalizing m with
  | nil => simpa using h
  | cons d ds ih =>
    simp only [List.foldl_cons]
    apply ih
    by_cases hk : k = d.docId
    · left; rw [hk]; exact mapGet_mapSet_self m d.docId (1/2)
    · rcases h with h | h
      · left
        rw [mapGet_mapSet_ne m d.docId k (1/2) hk]
        exact h
      · right
        simpa [hk] using h

/-- Counterexample to claim C2: a response whose text is `"5"` is
malformed for the expected id→score object shape, yet survives
`cleanAndParseJson` as the JSON number `5`; the guard
`typeof rerankScores === 'object'` then fails silently, so
`rerankResults` returns an *empty* map — the input candidate `"a"` is
not assigned `0.5`. -/
theorem rerank_nonobject_response_empty_map :
    rerankResults (.parsed (.num 5)) [⟨"a", "t", "c"⟩] = []
    ∧ mapGet (rerankResults (.parsed (.num 5)) [⟨"a", "t", "c"⟩]) "a" = none := by
  constructor <;> rfl

/-- Claim C2 (amended): when the completion provider errors, returns
empty content, or returns text on which JSON parsing fails,
`rerankResults` returns (never throws) a map assigning exactly `0.5` to
every input candidate's id; but a response that parses to a non-object
JSON value instead yields an empty score map. -/
theorem rerank_failure_assigns_half (documents : List RerankableDoc)
    (d : RerankableDoc) (hd : d ∈ documents) :
    mapGet (rerankResults .providerError documents) d.docId = some (1/2)
    ∧ mapGet (rerankResults .emptyContent documents) d.docId = some (1/2)
    ∧ mapGet (rerankResults .unparseable documents) d.docId = some (1/2)
    ∧ ∀ j : Json, jsonEntries j = [] →
        rerankResults (.parsed j) documents = [] := by
  have hmem : d.docId ∈ documents.map (·.docId) := List.mem_map_of_mem _ hd
  have hfb : mapGet (fallbackScores documents) d.docId = some (1/2) :=
    mapGet_foldl_fallback documents [] d.docId (Or.inr hmem)
  exact ⟨hfb, hfb, hfb, fun j hj => by simp [rerankResults, hj]⟩

/-- Witness for C2 (amended): a concrete two-candidate batch, each of
the three failure outcomes assigning both candidates exactly `0.5`. -/
theorem rerank_failure_assigns_half_witness :
    mapGet (rerankResults .providerError [⟨"a", "t", "c"⟩, ⟨"b", "u", "d"⟩]) "b"
      = some (1/2)
    ∧ mapGet (rerankResults .emptyContent [⟨"a", "t", "c"⟩, ⟨"b", "u", "d"⟩]) "b"
      = some (1/2)
    ∧ mapGet (rerankResults .unparseable [⟨"a", "t", "c"⟩, ⟨"b", "u", "d"⟩]) "b"
      = some (1/2) :=
  ⟨(rerank_failure_assigns_half _ ⟨"b", "u", "d"⟩ (by simp)).1,
   (rerank_failure_assigns_half _ ⟨"b", "u", "d"⟩ (by simp)).2.1,
   (rerank_failure_assigns_half _ ⟨"b", "u", "d"⟩ (by simp)).2.2.1⟩

/-- JS `x || y` for `x : number | undefined` at the orchestrators' use
sites (`rerankScores.get(id) || 0.5`, `avgChunkScores[id] || 0`,
`urlScores[id] || 0`): `undefined` and `0` are falsy and select `y`;
`NaN` cannot reach these sites (reranker entries are `NaN`-filtered,
aggregation inputs are modelled as parsed numbers). -/
def jsFalsyOr (x : Option ℚ) (y : ℚ) : ℚ :=
  match x with
  | none => y
  | some v => if v = 0 then y else v

/-- One step of building `chunkScores` (`DocumentSearchService.ts`
lines 156-165): append the chunk score to the parent's list, creating
the entry on first sight. -/
def recordPush : List (String × List ℚ) → String → ℚ → List (String × List ℚ)
  | [], k, v => [(k, [v])]
  | p :: ps, k, v => if p.1 == k then (p.1, p.2 ++ [v]) :: ps else p :: recordPush ps k v

/-- The `chunkScores` record: parent id → ordered chunk scores. -/
def chunkGroups (chunkHits : List (String × ℚ)) : List (String × List ℚ) :=
  chunkHits.foldl (fun m h => recordPush m h.1 h.2) []

/-- The record `avgChunkScores` (`DocumentSearchService.ts` lines 167-171):
arithmetic mean per parent id. -/
def avgChunkScores (chunkHits : List (String × ℚ)) : List (String × ℚ) :=
  (chunkGroups chunkHits).map (fun p => (p.1, p.2.sum / (p.2.length : ℚ)))

/-- A raw document hit returned by the primary Redis query, with its
fields already parsed (`publishedDateMs` is the integer passed to
`new Date(parseInt(...))`, `titleVectorScore` the `parseFloat` of the
KNN distance). -/
structure DocHit where
  docId : String
  title : String
  content : String
  signalUrl : String
  publishedDateMs : ℤ
  titleVectorScore : ℚ
deriving DecidableEq

/-- A `SearchResult` record of `DocumentSearchService`.  `recencyScore`
is `Option ℚ` because the recency scorer can produce `NaN` (`none`);
`rerankScore` and `weightedScore` are absent (`none`) until their
stages run. -/
structure DocResult where
  docId : String
  title : String
  content : String
  signalUrl : String
  publishedDateMs : ℤ
  titleVectorScore : ℚ
  avgChunkScore : ℚ
  fuzzyScore : ℚ
  recencyScore : Option ℚ
  rerankScore : Option ℚ
  overallScore : Option ℚ
  weightedScore : Option ℚ
deriving DecidableEq

/-- The per-hit body of the combine loop (`DocumentSearchService.ts`
lines 175-211): chunk average with `|| 0` default, fuzzy score as the
max over title and content, recency score from the resolved bias, and
the unweighted overall score `(title + chunk + fuzzy*1.5 + recency)/4`
(`NaN`-propagating through `recencyScore`). -/
def processDocHit (mexp : ℚ → ℚ) (now : ℤ) (exactQuery : String) (recencyBias : ℚ)
    (avgChunk : List (String × ℚ)) (hit : DocHit) : DocResult :=
  let titleVectorScore := hit.titleVectorScore
  let avgChunkScore := jsFalsyOr (mapGet avgChunk hit.docId) 0
  let titleFuzzyScore := calculateFuzzyScore hit.title exactQuery
  let contentFuzzyScore := calculateFuzzyScore hit.content exactQuery
  let fuzzyScore := jsMax titleFuzzyScore contentFuzzyScore
  let recencyScore := calculateRecencyScore mexp now (.valid hit.publishedDateMs) recencyBias
  let overallScore := recencyScore.map
    (fun rc => (titleVectorScore + avgChunkScore + fuzzyScore * (3/2) + rc) / 4)
  { docId := hit.docId, title := hit.title, content := hit.content,
    signalUrl := hit.signalUrl, publishedDateMs := hit.publishedDateMs,
    titleVectorScore := titleVectorScore, avgChunkScore := avgChunkScore,
    fuzzyScore := fuzzyScore, recencyScore := recencyScore,
    rerankScore := none, overallScore := overallScore, weightedScore := none }

/-- The aggregate stage of `DocumentSearchService.search`: every
primary hit combined with the chunk-average map. -/
def processDocs (mexp : ℚ → ℚ) (now : ℤ) (exactQuery : String) (recencyBias : ℚ)
    (chunkHits : List (String × ℚ)) (docHits : List DocHit) : List DocResult :=
  docHits.map (processDocHit mexp now exactQuery recencyBias (avgChunkScores chunkHits))

/-- The projection `output as RerankableDocument[]` used when the
orchestrator calls the reranker. -/
def toRerankable (doc : DocResult) : RerankableDoc :=
  ⟨doc.docId, doc.title, doc.content⟩

/-- The per-candidate attachment
`doc.rerankScore = rerankScores.get(doc.docId) || 0.5`
(`DocumentSearchService.ts` lines 222-224). -/
def attachRerank (scoreMap : List (String × ℚ)) (doc : DocResult) : DocResult :=
  { doc with rerankScore := some (jsFalsyOr (mapGet scoreMap doc.docId) (1/2)) }

/-- The optional-rerank stage (`DocumentSearchService.ts` lines
213-229).  `rerankResults` is total — every failure is absorbed by its
internal `catch`, which returns the `0.5` fallback map — so the
orchestrator's own `catch` around this block is unreachable and the
stage always attaches a `rerankScore` when it runs at all. -/
def rerankStage (useLlmReranking : Bool) (outcome : LlmOutcome)
    (output : List DocResult) : List DocResult :=
  if useLlmReranking && !output.isEmpty then
    let scoreMap := rerankResults outcome (output.map toRerankable)
    output.map (attachRerank scoreMap)
  else output

/-- The weighted-score stage for one candidate
(`DocumentSearchService.ts` lines 232-266): build the scores object,
copy the caller weights, and if a rerank score is present include it
and set `rerankWeight = 2.0` before calling
`calculateWeightedScore`. -/
def fuseStage (weights : Weights) (doc : DocResult) : DocResult :=
  let scores : Scores :=
    { titleVectorScore := some doc.titleVectorScore,
      avgChunkScore := some doc.avgChunkScore,
      fuzzyScore := some doc.fuzzyScore,
      recencyScore := doc.recencyScore,
      urlVectorScore := none,
      rerankScore := none }
  match doc.rerankScore with
  | some r =>
    { doc with weightedScore := some (calculateWeightedScore
        { scores with rerankScore := some r }
        { weights with rerankWeight := some 2 }) }
  | none =>
    { doc with weightedScore := some (calculateWeightedScore scores weights) }

/-- A raw URL hit of the primary query in `UrlSearchService.search`. -/
structure UrlHit where
  urlId : String
  url : String
  pageTitle : String
  titleVectorScore : ℚ
deriving DecidableEq

/-- A `UrlSearchResult` record of `UrlSearchService`. -/
structure UrlResult where
  urlId : String
  url : String
  pageTitle : String
  titleVectorScore : ℚ
  urlVectorScore : ℚ
  fuzzyScore : ℚ
  overallScore : ℚ
  weightedScore : Option ℚ
deriving DecidableEq

/-- The `urlScores` record (`UrlSearchService.ts` lines 86-91): plain
object assignment, later writes to the same id overwrite. -/
def urlScoreRecord (urlScoreHits : List (String × ℚ)) : List (String × ℚ) :=
  urlScoreHits.foldl (fun m h => mapSet m h.1 h.2) []

/-- The per-hit body of the combine loop of `UrlSearchService.search`
(lines 95-131): url-vector score with `|| 0` default, fuzzy score as
the max over url and page title, overall
`(title + url + fuzzy*1.5)/3.5`, and the weighted score from the
caller-supplied weights. -/
def processUrlHit (fuzzyValue : String) (weights : Weights)
    (urlScores : List (String × ℚ)) (hit : UrlHit) : UrlResult :=
  let titleVectorScore := hit.titleVectorScore
  let urlVectorScore := jsFalsyOr (mapGet urlScores hit.urlId) 0
  let urlFuzzyScore := calculateFuzzyScore hit.url fuzzyValue
  let titleFuzzyScore := calculateFuzzyScore hit.pageTitle fuzzyValue
  let fuzzyScore := jsMax urlFuzzyScore titleFuzzyScore
  let overallScore := (titleVectorScore + urlVectorScore + fuzzyScore * (3/2)) / (7/2)
  let weightedScore := calculateWeightedScore
    { titleVectorScore := some titleVectorScore, avgChunkScore := none,
      fuzzyScore := some fuzzyScore, recencyScore := none,
      urlVectorScore := some urlVectorScore, rerankScore := none } weights
  { urlId := hit.urlId, url := hit.url, pageTitle := hit.pageTitle,
    titleVectorScore := titleVectorScore, urlVectorScore := urlVectorScore,
    fuzzyScore := fuzzyScore, overallScore := overallScore,
    weightedScore := some weightedScore }

/-- The combine stage of `UrlSearchService.search`. -/
def processUrls (fuzzyValue : String) (weights : Weights)
    (urlScoreHits : List (String × ℚ)) (urlHits : List UrlHit) : List UrlResult :=
  urlHits.map (processUrlHit fuzzyValue weights (urlScoreRecord urlScoreHits))

/-- The key the final sort comparator actually computes:
`b.weightedScore || b.overallScore` — `undefined` *and* `0` both fall
back to the overall score. -/
def urlSortKey (r : UrlResult) : ℚ := jsFalsyOr r.weightedScore r.overallScore

/-- Descending comparison on the comparator key. -/
def urlSortLe (a b : UrlResult) : Prop := urlSortKey b ≤ urlSortKey a

instance : DecidableRel urlSortLe :=
  fun a b => inferInstanceAs (Decidable (urlSortKey b ≤ urlSortKey a))

instance : IsTotal UrlResult urlSortLe :=
  ⟨fun a b => le_total (urlSortKey b) (urlSortKey a)⟩

instance : IsTrans UrlResult urlSortLe :=
  ⟨fun _ _ _ hab hbc => le_trans hbc hab⟩

/-- The final sort (`UrlSearchService.ts` line 135;
`DocumentSearchService.ts` line 269 uses the identical comparator):
JS `Array.prototype.sort` is stable and the comparator returns
`keyB - keyA`, i.e. a stable descending sort on `urlSortKey`, modelled
by the stable `insertionSort`. -/
def sortStageUrl (results : List UrlResult) : List UrlResult :=
  List.insertionSort urlSortLe results

/-- The sort key claim C9 describes (a reference definition following
the spec's words, for comparison): the weighted score whenever it is
defined, the overall score only when it is not. -/
def urlSortKeySpec (r : UrlResult) : ℚ :=
  match r.weightedScore with
  | some w => w
  | none => r.overallScore

/-- Descending comparison on the claimed key. -/
def urlSortLeSpec (a b : UrlResult) : Prop := urlSortKeySpec b ≤ urlSortKeySpec a

instance : DecidableRel urlSortLeSpec :=
  fun a b => inferInstanceAs (Decidable (urlSortKeySpec b ≤ urlSortKeySpec a))

/-- The sort claim C9 describes, stable and descending on the claimed
key. -/
def sortStageUrlSpec (results : List UrlResult) : List UrlResult :=
  List.insertionSort urlSortLeSpec results

/-- The fuser `calculateWeightedScore` reads only the five named score/weight
pairs; the `rerankScore` and `rerankWeight` fields are never consulted
by any accumulation block. -/
theorem weighted_score_rerank_fields_unread (a b c d e r r' : Option ℚ)
    (wa wb wc wd we u u' : Option ℚ) :
    calculateWeightedScore ⟨a, b, c, d, e, r⟩ ⟨wa, wb, wc, wd, we, u⟩
      = calculateWeightedScore ⟨a, b, c, d, e, r'⟩ ⟨wa, wb, wc, wd, we, u'⟩ := rfl

/-- Caller weight vector `{ titleWeight: 1 }`. -/
def titleOnlyWeights : Weights := ⟨some 1, none, none, none, none, none⟩

/-- A candidate whose only nonzero signal is a perfect rerank score. -/
def docWithRerank : DocResult :=
  { docId := "a", title := "t", content := "c", signalUrl := "u",
    publishedDateMs := 0, titleVectorScore := 0, avgChunkScore := 0,
    fuzzyScore := 0, recencyScore := some 0, rerankScore := some 1,
    overallScore := some 0, weightedScore := none }

/-- Claim C1 is a code bug: the orchestrator does inject
`rerankWeight = 2.0` and the rerank score into the maps handed to
`calculateWeightedScore`, but the fuser has no accumulation block for
`rerankScore`/`rerankWeight`, so the rerank partial score never
participates in the weighted mean.  With `{titleWeight: 1}`, all base
signals `0` and rerank score `1`, the claimed rule would give
`(0·1 + 1·2)/(1 + 2) = 2/3`; the code computes `0`, exactly the value
obtained with no rerank score at all. -/
theorem rerank_weight_never_fused :
    (fuseStage titleOnlyWeights docWithRerank).weightedScore = some 0
    ∧ (fuseStage titleOnlyWeights docWithRerank).weightedScore
      = (fuseStage titleOnlyWeights
          { docWithRerank with rerankScore := none }).weightedScore
    ∧ (0 : ℚ) ≠ 2/3 := by
  refine ⟨?_, ?_, by norm_num⟩ <;>
    norm_num [fuseStage, docWithRerank, titleOnlyWeights, calculateWeightedScore,
      fuseAcc, fuseStep]

/-- A candidate entering the optional-rerank stage (no rerank score
attached yet). -/
def docPlain : DocResult :=
  { docId := "a", title := "t", content := "c", signalUrl := "u",
    publishedDateMs := 0, titleVectorScore := 0, avgChunkScore := 0,
    fuzzyScore := 0, recencyScore := some 1, rerankScore := none,
    overallScore := some 0, weightedScore := none }

/-- Counterexample to claim C3: with reranking enabled and one
candidate, a completion-provider failure does *not* leave the
candidate without a rerank partial score — `rerankResults` absorbs the
failure and returns the `0.5` fallback map, which the stage attaches. -/
theorem rerank_failure_attaches_half :
    (rerankStage true .providerError [docPlain]).map (·.rerankScore) = [some (1/2)]
    ∧ (some ((1 : ℚ)/2) : Option ℚ) ≠ none := by
  constructor
  · norm_num [rerankStage, docPlain, rerankResults, fallbackScores, toRerankable,
      mapSet, attachRerank, mapGet, jsFalsyOr]
  · simp

/-- Claim C3 (amended): a reranker failure is absorbed inside
`rerankResults`, so the optional-rerank stage attaches the fallback
`0.5` as every candidate's rerank partial score (and `rerankWeight =
2.0` is then injected); the rerank signal nevertheless contributes
nothing to the weighted fusion, because `calculateWeightedScore` has no
accumulation block for rerank entries. -/
theorem rerank_failure_default_inert (output : List DocResult) (weights : Weights) :
    ((rerankStage true .providerError output).map (·.rerankScore)
      = output.map (fun _ => some (1/2)))
    ∧ ∀ d : DocResult, (fuseStage weights d).weightedScore
        = (fuseStage weights { d with rerankScore := none }).weightedScore := by
  constructor
  · by_cases h : output = []
    · subst h; rfl
    · simp only [rerankStage, Bool.true_and]
      rw [if_pos (by simpa [List.isEmpty_iff] using h)]
      rw [List.map_map]
      refine List.map_congr_left ?_
      intro d hd
      simp only [Function.comp, attachRerank]
      have hmem : d.docId ∈ (output.map toRerankable).map (·.docId) := by
        simp only [List.map_map, List.mem_map]
        exact ⟨d, hd, rfl⟩
      have hm : mapGet (rerankResults .providerError (output.map toRerankable)) d.docId
          = some (1/2) :=
        mapGet_foldl_fallback (output.map toRerankable) [] d.docId (Or.inr hmem)
      rw [hm]
      norm_num [jsFalsyOr]
  · intro d
    obtain ⟨did, dt, dc, du, dp, dtv, dac, dfz, drc, drr, dov, dwt⟩ := d
    cases drr with
    | none => rfl
    | some r => rfl

/-- Counterexample to claim C4: the reranker legitimately returns the
clamped score `0` for candidate `"a"` (the response is the JSON object
`{"a": 0}`), its id is in the returned map, yet the stage attaches
`0.5` instead of the returned score, because `get(id) || 0.5` treats
`0` as falsy. -/
theorem rerank_zero_score_replaced :
    mapGet (rerankResults (.parsed (.obj [("a", .num 0)])) [toRerankable docPlain]) "a"
      = some 0
    ∧ (rerankStage true (.parsed (.obj [("a", .num 0)])) [docPlain]).map (·.rerankScore)
      = [some (1/2)]
    ∧ (some ((1 : ℚ)/2) : Option ℚ) ≠ some 0 := by
  refine ⟨?_, ?_, by norm_num⟩ <;>
    norm_num [rerankStage, docPlain, rerankResults, jsonEntries, jsToNumber,
      toRerankable, mapSet, attachRerank, mapGet, jsFalsyOr, jsMin, jsMax]

/-- Claim C4 (amended): when reranking succeeds the stage maps
`attachRerank` over the candidates; a candidate whose id maps to a
*nonzero* score `v` is assigned exactly `v`, while candidates whose ids
are missing from the map — or mapped to `0`, which `||` treats as
missing — are defaulted to `0.5`. -/
theorem rerank_attach_rule (outcome : LlmOutcome) (output : List DocResult)
    (scoreMap : List (String × ℚ)) (doc : DocResult) (hne : output ≠ []) :
    rerankStage true outcome output
      = output.map (attachRerank (rerankResults outcome (output.map toRerankable)))
    ∧ (∀ v : ℚ, mapGet scoreMap doc.docId = some v → v ≠ 0 →
        (attachRerank scoreMap doc).rerankScore = some v)
    ∧ (mapGet scoreMap doc.docId = some 0 →
        (attachRerank scoreMap doc).rerankScore = some (1/2))
    ∧ (mapGet scoreMap doc.docId = none →
        (attachRerank scoreMap doc).rerankScore = some (1/2)) := by
  refine ⟨?_, ?_, ?_, ?_⟩
  · simp only [rerankStage, Bool.true_and]
    rw [if_pos (by simpa [List.isEmpty_iff] using hne)]
  · intro v hv hv0
    simp [attachRerank, jsFalsyOr, hv, hv0]
  · intro hv
    simp [attachRerank, jsFalsyOr, hv]
  · intro hv
    simp [attachRerank, jsFalsyOr, hv]

/-- Witness for C4 (amended): a present nonzero score `3/4` is attached
verbatim; an id absent from the map gets `0.5`. -/
theorem rerank_attach_rule_witness :
    (attachRerank [("a", 3/4)] docPlain).rerankScore = some (3/4)
    ∧ (attachRerank [("a", 3/4)] { docPlain with docId := "z" }).rerankScore
      = some (1/2) :=
  ⟨(rerank_attach_rule .providerError [docPlain] [("a", 3/4)] docPlain
      (by simp)).2.1 (3/4) rfl (by norm_num),
   (rerank_attach_rule .providerError [docPlain] [("a", 3/4)]
      { docPlain with docId := "z" } (by simp)).2.2.2 rfl⟩

/-- Claim C8: in document search every produced candidate's unweighted
overall score is `(titleVector + avgChunk + fuzzy·1.5 + recency)/4`
(propagating a `NaN` recency); in URL search it is
`(titleVector + urlVector + fuzzy·1.5)/3.5`; and a document whose id
has no chunk entry still divides by the fixed `4`, with
`avgChunkScore = 0`. -/
theorem overall_score_fixed_divisor (mexp : ℚ → ℚ) (now : ℤ) (exactQuery : String)
    (recencyBias : ℚ) (chunkHits : List (String × ℚ)) (docHits : List DocHit)
    (fuzzyValue : String) (weights : Weights) (urlScoreHits : List (String × ℚ))
    (urlHits : List UrlHit) :
    (∀ r ∈ processDocs mexp now exactQuery recencyBias chunkHits docHits,
      r.overallScore = r.recencyScore.map
        (fun rc => (r.titleVectorScore + r.avgChunkScore + r.fuzzyScore * (3/2) + rc) / 4))
    ∧ (∀ r ∈ processDocs mexp now exactQuery recencyBias chunkHits docHits,
        mapGet (avgChunkScores chunkHits) r.docId = none → r.avgChunkScore = 0)
    ∧ (∀ u ∈ processUrls fuzzyValue weights urlScoreHits urlHits,
      u.overallScore
        = (u.titleVectorScore + u.urlVectorScore + u.fuzzyScore * (3/2)) / (7/2)) := by
  refine ⟨?_, ?_, ?_⟩
  · intro r hr
    obtain ⟨hit, _, rfl⟩ := List.mem_map.mp hr
    rfl
  · intro r hr
    obtain ⟨hit, _, rfl⟩ := List.mem_map.mp hr
    intro hnone
    simp only [processDocHit] at hnone ⊢
    rw [hnone]
    rfl
  · intro u hu
    obtain ⟨hit, _, rfl⟩ := List.mem_map.mp hu
    rfl

/-- A concrete document hit and URL hit for the C8 witness. -/
def docHit0 : DocHit := ⟨"d1", "t", "c", "u", 0, 1⟩

/-- A concrete URL hit for the C8 witness. -/
def urlHit0 : UrlHit := ⟨"u1", "x", "y", 1⟩

/-- Witness for C8: the overall-score formulas evaluated on a concrete
candidate each, with an empty chunk map (so the document divisor stays
`4` with a zero chunk signal). -/
theorem overall_score_fixed_divisor_witness :
    (processDocHit (fun _ => 1) 0 "q" 0 (avgChunkScores []) docHit0).overallScore
      = (processDocHit (fun _ => 1) 0 "q" 0 (avgChunkScores []) docHit0).recencyScore.map
          (fun rc =>
            ((processDocHit (fun _ => 1) 0 "q" 0 (avgChunkScores []) docHit0).titleVectorScore
              + (processDocHit (fun _ => 1) 0 "q" 0 (avgChunkScores []) docHit0).avgChunkScore
              + (processDocHit (fun _ => 1) 0 "q" 0 (avgChunkScores []) docHit0).fuzzyScore * (3/2)
              + rc) / 4)
    ∧ (processDocHit (fun _ => 1) 0 "q" 0 (avgChunkScores []) docHit0).avgChunkScore = 0
    ∧ (processUrlHit "q" titleOnlyWeights (urlScoreRecord []) urlHit0).overallScore
      = ((processUrlHit "q" titleOnlyWeights (urlScoreRecord []) urlHit0).titleVectorScore
          + (processUrlHit "q" titleOnlyWeights (urlScoreRecord []) urlHit0).urlVectorScore
          + (processUrlHit "q" titleOnlyWeights (urlScoreRecord []) urlHit0).fuzzyScore * (3/2))
          / (7/2) :=
  ⟨(overall_score_fixed_divisor (fun _ => 1) 0 "q" 0 [] [docHit0] "q" titleOnlyWeights
      [] [urlHit0]).1 _ (by simp [processDocs]),
   (overall_score_fixed_divisor (fun _ => 1) 0 "q" 0 [] [docHit0] "q" titleOnlyWeights
      [] [urlHit0]).2.1 _ (by simp [processDocs]) rfl,
   (overall_score_fixed_divisor (fun _ => 1) 0 "q" 0 [] [docHit0] "q" titleOnlyWeights
      [] [urlHit0]).2.2 _ (by simp [processUrls])⟩

/-- A candidate with weighted score `0` and high overall score. -/
def urlResA : UrlResult :=
  { urlId := "A", url := "x", pageTitle := "y", titleVectorScore := 0,
    urlVectorScore := 0, fuzzyScore := 0, overallScore := 9, weightedScore := some 0 }

/-- A candidate with weighted score `0` and low overall score. -/
def urlResB : UrlResult :=
  { urlId := "B", url := "x", pageTitle := "y", titleVectorScore := 0,
    urlVectorScore := 0, fuzzyScore := 0, overallScore := 1, weightedScore := some 0 }

/-- Counterexample to claim C9: both candidates have the *defined*
weighted score `0`, so by the claim they are tied and a stable sort
must keep the input order `[B, A]`; the comparator's `||` instead falls
back to the overall scores and reorders to `[A, B]`. -/
theorem sort_zero_weighted_uses_overall :
    sortStageUrl [urlResB, urlResA] = [urlResA, urlResB]
    ∧ sortStageUrlSpec [urlResB, urlResA] = [urlResB, urlResA]
    ∧ sortStageUrl [urlResB, urlResA] ≠ sortStageUrlSpec [urlResB, urlResA] := by
  have h1 : sortStageUrl [urlResB, urlResA] = [urlResA, urlResB] := by
    norm_num [sortStageUrl, List.insertionSort, List.orderedInsert, urlSortLe,
      urlSortKey, jsFalsyOr, urlResA, urlResB]
  have h2 : sortStageUrlSpec [urlResB, urlResA] = [urlResB, urlResA] := by
    norm_num [sortStageUrlSpec, List.insertionSort, List.orderedInsert, urlSortLeSpec,
      urlSortKeySpec, urlResA, urlResB]
  refine ⟨h1, h2, ?_⟩
  rw [h1, h2]
  simp [urlResA, urlResB]

/-- Claim C9 (amended): the final candidate list is a permutation of
the input, stably sorted (the model uses a stable insertion sort, as JS
`Array.prototype.sort` is stable) in descending order of the key the
comparator actually computes: the weighted score when it is defined
*and nonzero*, otherwise the overall score. -/
theorem sort_stage_sorted (results : List UrlResult) :
    List.Sorted urlSortLe (sortStageUrl results)
    ∧ (sortStageUrl results).Perm results :=
  ⟨List.sorted_insertionSort urlSortLe results,
   List.perm_insertionSort urlSortLe results⟩

end USearch
